import Mathlib

/-!
Verification of the crypto ETL pipeline (`src/pipeline.py`).

The pipeline has three stages: fetch (network, out of scope of the claims
below), normalize (`normalize_rows`), and load/export against a SQLite store
(`load_into_sqlite`, `export_snapshots`).  This file gives a shallow
embedding of the normalize, load and export stages and proves the spec's
claims about them.

Modelling decisions, all taken from the source:
* A raw API record is a JSON object, i.e. an association list from string
  keys to JSON values.  `Python`'s `dict.get` returns `None` both for a
  missing key and is the identity on a stored `None` (JSON `null`), so
  `pyGet` collapses a missing key to `JVal.null` while the association list
  itself still distinguishes the two (needed for claim C10).
* `datetime.now(...)`'s formatted result is the `now : String` parameter of
  `normalize_rows`; the Python code computes it once before the loop, so a
  single value is in scope for the whole batch.
* The SQLite table `prices` is a list of `ObsRow`; its TEXT NOT NULL columns
  are `String` fields and its nullable REAL columns are `Option ℚ` fields.
* SQLite compares TEXT with the BINARY collation, i.e. bytewise on UTF-8,
  which coincides with codepoint-lexicographic order; `strLe` implements
  that order directly so it evaluates inside the kernel.
* `ORDER BY ... DESC` in SQLite puts NULLs last (NULL is smaller than every
  value), and `pandas.sort_values` with `ascending=False` also places
  missing values last; `optDescLe` is that comparator.  Neither sort
  promises stability, so sorting is modelled by an insertion sort producing
  some sorted permutation.
* `df.to_sql(..., if_exists="append")` inserts the batch inside one
  transaction that is rolled back when SQLite reports a PRIMARY KEY
  violation (the error the spec names `DuplicateObservationError`), so
  `load_into_sqlite` either appends the whole batch or returns the store
  unchanged together with the error.
-/

namespace CryptoPipeline

/-- JSON values as they appear in the market-data API payload after
`response.json()`: `null` (also Python `None`), strings, numbers and
booleans.  Numbers are modelled as rationals. -/
inductive JVal where
  | null
  | str (s : String)
  | num (q : ℚ)
  | bool (b : Bool)
deriving DecidableEq, Repr

/-- A raw API record: a JSON object, i.e. key/value pairs (`item` in
`normalize_rows`). -/
abbrev RawRecord := List (String × JVal)

/-- Python `item.get(k)`: the stored value, or `None` (`JVal.null`) when the
key is missing. -/
def pyGet (item : RawRecord) (k : String) : JVal :=
  (item.lookup k).getD JVal.null

/-- Python truthiness of a JSON value: `None`, `""`, `0` and `False` are
falsy. -/
def pyTruthy : JVal → Bool
  | JVal.null => false
  | JVal.str s => !(s == "")
  | JVal.num q => !(q == 0)
  | JVal.bool b => b

/-- Python `a or b`: `a` when truthy, otherwise `b`. -/
def pyOr (a b : JVal) : JVal :=
  if pyTruthy a then a else b

/-- The error raised by Python when `.upper()` is called on a non-string
(`AttributeError`). -/
inductive PyError where
  | attributeError
deriving DecidableEq, Repr

/-- ASCII upper-casing of a string, the behaviour of `str.upper()` on the
ticker symbols this pipeline handles. -/
def strUpper (s : String) : String :=
  ⟨s.data.map Char.toUpper⟩

/-- Python `v.upper()`: defined on strings, an `AttributeError` otherwise. -/
def pyUpper : JVal → Except PyError String
  | JVal.str s => Except.ok (strUpper s)
  | _ => Except.error PyError.attributeError

/-- The fixed provider tag (`SOURCE = "coingecko"` in `pipeline.py`). -/
def SOURCE : String := "coingecko"

/-- One normalized row as built by the dict literal inside
`normalize_rows`: `ts_utc` and `symbol` are always strings there, the other
payload-derived fields carry whatever JSON value `item.get` returned. -/
structure NormRow where
  ts_utc : String
  coin_id : JVal
  symbol : String
  price_usd : JVal
  market_cap_usd : JVal
  volume_24h_usd : JVal
  change_24h_pct : JVal
  source : String
deriving DecidableEq, Repr

/-- The body of the loop in `normalize_rows`, for one record:

```
{"ts_utc": now, "coin_id": item.get("id"),
 "symbol": (item.get("symbol") or "").upper(),
 "price_usd": item.get("current_price"),
 "market_cap_usd": item.get("market_cap"),
 "volume_24h_usd": item.get("total_volume"),
 "change_24h_pct": (item.get("price_change_percentage_24h") or 0.0),
 "source": SOURCE}
``` -/
def normalizeItem (now : String) (item : RawRecord) : Except PyError NormRow :=
  match pyUpper (pyOr (pyGet item "symbol") (JVal.str "")) with
  | Except.error e => Except.error e
  | Except.ok sym =>
    Except.ok
      { ts_utc := now
        coin_id := pyGet item "id"
        symbol := sym
        price_usd := pyGet item "current_price"
        market_cap_usd := pyGet item "market_cap"
        volume_24h_usd := pyGet item "total_volume"
        change_24h_pct := pyOr (pyGet item "price_change_percentage_24h") (JVal.num 0)
        source := SOURCE }

/-- `normalize_rows(payload)`: the sequential loop over the payload, with
`now` computed once before the loop.  The first Python exception aborts the
whole call. -/
def normalize_rows (now : String) : List RawRecord → Except PyError (List NormRow)
  | [] => Except.ok []
  | item :: rest =>
    match normalizeItem now item with
    | Except.error e => Except.error e
    | Except.ok row =>
      match normalize_rows now rest with
      | Except.error e => Except.error e
      | Except.ok rows => Except.ok (row :: rows)

/-- A record whose `symbol` value (after `dict.get`) is null or a string —
the shapes on which `.upper()` does not raise. -/
def symbolOk (item : RawRecord) : Bool :=
  match pyGet item "symbol" with
  | JVal.null => true
  | JVal.str _ => true
  | _ => false

/-- A record whose `price_change_percentage_24h` value (after `dict.get`)
is null or a number. -/
def changeOk (item : RawRecord) : Bool :=
  match pyGet item "price_change_percentage_24h" with
  | JVal.null => true
  | JVal.num _ => true
  | _ => false

/-- The row the spec says `normalize` produces for one record: `coin_id`
from `id`, `symbol` upper-cased with missing-or-null becoming `""`, the
three price fields passed through (missing-or-null as null), and
`change_24h_pct` from `price_change_percentage_24h` defaulting to `0.0`
when no numeric value is present. -/
def specNormalizedRow (now : String) (item : RawRecord) : NormRow :=
  { ts_utc := now
    coin_id := pyGet item "id"
    symbol :=
      match pyGet item "symbol" with
      | JVal.str s => strUpper s
      | _ => ""
    price_usd := pyGet item "current_price"
    market_cap_usd := pyGet item "market_cap"
    volume_24h_usd := pyGet item "total_volume"
    change_24h_pct :=
      match pyGet item "price_change_percentage_24h" with
      | JVal.num q => JVal.num q
      | _ => JVal.num 0
    source := "coingecko" }

/-- One row of the SQLite table `prices` (see `CREATE_SQL`): the four TEXT
columns are NOT NULL, the four REAL columns are nullable. -/
structure ObsRow where
  ts_utc : String
  coin_id : String
  symbol : String
  price_usd : Option ℚ
  market_cap_usd : Option ℚ
  volume_24h_usd : Option ℚ
  change_24h_pct : Option ℚ
  source : String
deriving DecidableEq, Repr

/-- Levels of the `logging` module used by the pipeline. -/
inductive LogLevel where
  | info
  | warning
deriving DecidableEq, Repr

/-- One emitted log line. -/
structure LogEntry where
  level : LogLevel
  msg : String
deriving DecidableEq, Repr

/-- The load-stage failure: SQLite's PRIMARY KEY violation on
(`ts_utc`,`coin_id`) — `sqlite3.IntegrityError`, which the spec names
`DuplicateObservationError`. -/
inductive LoadError where
  | duplicateObservation
deriving DecidableEq, Repr

/-- Two rows collide on the composite primary key (`ts_utc`,`coin_id`). -/
def keyClash (a b : ObsRow) : Bool :=
  a.ts_utc == b.ts_utc && a.coin_id == b.coin_id

/-- The batch INSERT executed by `df.to_sql(..., if_exists="append")`: rows
are inserted in order and the first primary-key violation aborts the
statement. -/
def insertAll (store : List ObsRow) : List ObsRow → Except LoadError (List ObsRow)
  | [] => Except.ok store
  | r :: rest =>
    if store.any (keyClash r) then Except.error LoadError.duplicateObservation
    else insertAll (store ++ [r]) rest

/-- Result of one `load_into_sqlite` call: the store after the call, the
error raised if any, and the log lines emitted. -/
structure LoadOutcome where
  store : List ObsRow
  err : Option LoadError
  logs : List LogEntry
deriving DecidableEq, Repr

/-- `load_into_sqlite(df)`: an empty frame only logs a warning; otherwise
the batch is appended inside one transaction, which is rolled back (store
unchanged) when a row violates the primary key. -/
def load_into_sqlite (store : List ObsRow) (df : List ObsRow) : LoadOutcome :=
  if df.isEmpty then
    { store := store, err := none, logs := [⟨LogLevel.warning, "No rows to load."⟩] }
  else
    match insertAll store df with
    | Except.ok s =>
      { store := s, err := none, logs := [⟨LogLevel.info, "Loaded rows."⟩] }
    | Except.error e => { store := store, err := some e, logs := [] }

/-- Bytewise (equivalently, codepoint-lexicographic) comparison of two
char lists: SQLite's BINARY collation on TEXT values. -/
def charsLe : List Char → List Char → Bool
  | [], _ => true
  | _ :: _, [] => false
  | a :: as, b :: bs =>
    if a.toNat < b.toNat then true
    else if b.toNat < a.toNat then false
    else charsLe as bs

/-- SQLite TEXT comparison of two strings. -/
def strLe (a b : String) : Bool :=
  charsLe a.data b.data

/-- The two-argument step of the `MAX` aggregate on TEXT. -/
def tsMax (a b : String) : String :=
  if strLe a b then b else a

/-- `SELECT MAX(ts_utc) FROM prices`: `NULL` on an empty table, else the
largest TEXT value. -/
def latestTs (store : List ObsRow) : Option String :=
  match store.map (fun r => r.ts_utc) with
  | [] => none
  | t :: ts => some (ts.foldl tsMax t)

/-- SQL equality of a non-NULL column value against a possibly-NULL bound
parameter: `ts_utc = NULL` is not satisfied by any row. -/
def sqlEq (v : String) (p : Option String) : Bool :=
  match p with
  | none => false
  | some t => v == t

/-- The `DESC`-with-NULLs-last comparator on a nullable numeric key:
`optDescLe a b` holds when `a` may appear at or before `b`.  SQLite sorts
NULL below every value, so `DESC` places NULLs last; `pandas.sort_values`
with `ascending=False` keeps missing values last as well. -/
def optDescLe (a b : Option ℚ) : Bool :=
  match a, b with
  | _, none => true
  | none, some _ => false
  | some p, some q => decide (q ≤ p)

/-- Insert into a list sorted by the comparator `le`. -/
def orderedInsert (le : α → α → Bool) (x : α) : List α → List α
  | [] => [x]
  | y :: ys => if le x y then x :: y :: ys else y :: orderedInsert le x ys

/-- Sort by the comparator `le` (some sorted permutation; neither SQLite's
`ORDER BY` nor pandas' default quicksort promises stability). -/
def sortBy (le : α → α → Bool) : List α → List α
  | [] => []
  | x :: xs => orderedInsert le x (sortBy le xs)

/-- The snapshot query of `export_snapshots`:

```
SELECT coin_id, symbol, ts_utc, price_usd, market_cap_usd,
       volume_24h_usd, change_24h_pct
FROM prices WHERE ts_utc = ? ORDER BY market_cap_usd DESC
```

with the `MAX(ts_utc)` result bound to the parameter. -/
def selectSnapshot (store : List ObsRow) : List ObsRow :=
  sortBy (fun a b => optDescLe a.market_cap_usd b.market_cap_usd)
    (store.filter (fun r => sqlEq r.ts_utc (latestTs store)))

/-- `snap.sort_values("change_24h_pct", ascending=False)`: the movers
report re-sorts the snapshot rows. -/
def topMovers (store : List ObsRow) : List ObsRow :=
  sortBy (fun a b => optDescLe a.change_24h_pct b.change_24h_pct)
    (selectSnapshot store)

/-- How `DataFrame.to_csv` renders one nullable numeric cell: missing
values become the empty cell. -/
def renderCell : Option ℚ → String
  | none => ""
  | some q => toString q

/-- One CSV data line for an observation, in the column order of the
snapshot SELECT (which both files share). -/
def renderObs (r : ObsRow) : List String :=
  [r.coin_id, r.symbol, r.ts_utc, renderCell r.price_usd,
   renderCell r.market_cap_usd, renderCell r.volume_24h_usd,
   renderCell r.change_24h_pct]

/-- The columns of both CSV files, in the order produced by the SELECT in
`export_snapshots` (pandas preserves query column order, and
`to_csv(..., index=False)` writes exactly these columns). -/
def snapCols : List String :=
  ["coin_id", "symbol", "ts_utc", "price_usd", "market_cap_usd",
   "volume_24h_usd", "change_24h_pct"]

/-- `to_csv(..., index=False)`: a header line then one line per row. -/
def to_csv (cols : List String) (rows : List (List String)) : List String :=
  String.intercalate "," cols :: rows.map (String.intercalate ",")

/-- `export_snapshots()`: the lines of `latest_snapshot.csv` paired with
the lines of `top_movers_24h.csv` (each write is a full overwrite of the
file). -/
def export_snapshots (store : List ObsRow) : List String × List String :=
  (to_csv snapCols ((selectSnapshot store).map renderObs),
   to_csv snapCols ((topMovers store).map renderObs))

/-! ### Order facts about the TEXT comparison -/

lemma char_eq_of_toNat_eq {a b : Char} (h : a.toNat = b.toNat) : a = b :=
  Char.ext (UInt32.toNat.inj h)

lemma charsLe_cons (a b : Char) (as bs : List Char) :
    charsLe (a :: as) (b :: bs) = true ↔
      a.toNat < b.toNat ∨ (a.toNat = b.toNat ∧ charsLe as bs = true) := by
  simp only [charsLe]
  by_cases h1 : a.toNat < b.toNat
  · simp [h1]
  · by_cases h2 : b.toNat < a.toNat
    · simp [h1, h2]
      omega
    · have heq : a.toNat = b.toNat := by omega
      simp [h1, h2, heq]

lemma charsLe_refl (l : List Char) : charsLe l l = true := by
  induction l with
  | nil => rfl
  | cons a as ih => simp [charsLe_cons, ih]

lemma charsLe_total (x y : List Char) : charsLe x y = true ∨ charsLe y x = true := by
  induction x generalizing y with
  | nil => exact Or.inl rfl
  | cons a as ih =>
    cases y with
    | nil => exact Or.inr rfl
    | cons b bs =>
      rcases Nat.lt_trichotomy a.toNat b.toNat with h | h | h
      · exact Or.inl ((charsLe_cons a b as bs).mpr (Or.inl h))
      · rcases ih bs with hc | hc
        · exact Or.inl ((charsLe_cons a b as bs).mpr (Or.inr ⟨h, hc⟩))
        · exact Or.inr ((charsLe_cons b a bs as).mpr (Or.inr ⟨h.symm, hc⟩))
      · exact Or.inr ((charsLe_cons b a bs as).mpr (Or.inl h))

lemma charsLe_trans (x : List Char) : ∀ y z : List Char,
    charsLe x y = true → charsLe y z = true → charsLe x z = true := by
  induction x with
  | nil => intro y z _ _; rfl
  | cons a as ih =>
    intro y z hxy hyz
    cases y with
    | nil => simp [charsLe] at hxy
    | cons b bs =>
      cases z with
      | nil => simp [charsLe] at hyz
      | cons c cs =>
        rw [charsLe_cons] at hxy hyz ⊢
        rcases hxy with h1 | ⟨h1, h1r⟩
        · rcases hyz with h2 | ⟨h2, _⟩
          · exact Or.inl (Nat.lt_trans h1 h2)
          · exact Or.inl (by omega)
        · rcases hyz with h2 | ⟨h2, h2r⟩
          · exact Or.inl (by omega)
          · exact Or.inr ⟨by omega, ih bs cs h1r h2r⟩

lemma charsLe_antisymm (x : List Char) : ∀ y : List Char,
    charsLe x y = true → charsLe y x = true → x = y := by
  induction x with
  | nil =>
    intro y _ h2
    cases y with
    | nil => rfl
    | cons b bs => simp [charsLe] at h2
  | cons a as ih =>
    intro y h1 h2
    cases y with
    | nil => simp [charsLe] at h1
    | cons b bs =>
      rw [charsLe_cons] at h1 h2
      have hab : a.toNat = b.toNat := by omega
      rcases h1 with h1 | ⟨_, h1r⟩
      · omega
      · rcases h2 with h2 | ⟨_, h2r⟩
        · omega
        · rw [char_eq_of_toNat_eq hab, ih bs h1r h2r]

lemma strLe_refl (a : String) : strLe a a = true :=
  charsLe_refl a.data

lemma strLe_total (a b : String) : strLe a b = true ∨ strLe b a = true :=
  charsLe_total a.data b.data

lemma strLe_trans {a b c : String} (h1 : strLe a b = true) (h2 : strLe b c = true) :
    strLe a c = true :=
  charsLe_trans a.data b.data c.data h1 h2

lemma strLe_antisymm {a b : String} (h1 : strLe a b = true) (h2 : strLe b a = true) :
    a = b :=
  String.ext (charsLe_antisymm a.data b.data h1 h2)

/-! ### The MAX aggregate -/

lemma foldl_tsMax_spec (ts : List String) : ∀ t : String,
    (ts.foldl tsMax t = t ∨ ts.foldl tsMax t ∈ ts) ∧
    strLe t (ts.foldl tsMax t) = true ∧
    ∀ x ∈ ts, strLe x (ts.foldl tsMax t) = true := by
  induction ts with
  | nil => exact fun t => ⟨Or.inl rfl, strLe_refl t, by simp⟩
  | cons u us ih =>
    intro t
    have hfold : ((u :: us).foldl tsMax t) = us.foldl tsMax (tsMax t u) := rfl
    obtain ⟨hmem, hle, hall⟩ := ih (tsMax t u)
    have htu : strLe t (tsMax t u) = true := by
      cases h : strLe t u with
      | true => simp [tsMax, h]
      | false => simp [tsMax, h, strLe_refl]
    have huu : strLe u (tsMax t u) = true := by
      cases h : strLe t u with
      | true => simp [tsMax, h, strLe_refl]
      | false =>
        rcases strLe_total t u with h1 | h1
        · rw [h] at h1; cases h1
        · simp [tsMax, h, h1]
    refine ⟨?_, ?_, ?_⟩
    · rcases hmem with h | h
      · cases h2 : strLe t u with
        | true =>
          refine Or.inr ?_
          rw [hfold, h]
          simp [tsMax, h2]
        | false =>
          refine Or.inl ?_
          rw [hfold, h]
          simp [tsMax, h2]
      · exact Or.inr (by rw [hfold]; exact List.mem_cons_of_mem _ h)
    · rw [hfold]; exact strLe_trans htu hle
    · intro x hx
      rw [hfold]
      rcases List.mem_cons.mp hx with rfl | hx'
      · exact strLe_trans huu hle
      · exact hall x hx'

lemma latestTs_eq_some (store : List ObsRow) (T2 : String)
    (hmem : ∃ r ∈ store, r.ts_utc = T2)
    (hmax : ∀ r ∈ store, strLe r.ts_utc T2 = true) :
    latestTs store = some T2 := by
  obtain ⟨r0, hr0, hts⟩ := hmem
  cases hst : store.map (fun r => r.ts_utc) with
  | nil =>
    have : store = [] := List.map_eq_nil_iff.mp hst
    subst this
    cases hr0
  | cons t ts =>
    unfold latestTs
    rw [hst]
    obtain ⟨hm, hle, hall⟩ := foldl_tsMax_spec ts t
    have hmem_m : ts.foldl tsMax t ∈ t :: ts := by
      rcases hm with h | h
      · rw [h]; exact List.mem_cons_self t ts
      · exact List.mem_cons_of_mem _ h
    have hmaps : ts.foldl tsMax t ∈ store.map (fun r => r.ts_utc) := by
      rw [hst]; exact hmem_m
    obtain ⟨rm, hrm, hrmeq⟩ := List.mem_map.mp hmaps
    have h1 : strLe (ts.foldl tsMax t) T2 = true := by
      rw [← hrmeq]; exact hmax rm hrm
    have hT2mem : T2 ∈ t :: ts := by
      rw [← hst]
      exact List.mem_map.mpr ⟨r0, hr0, hts⟩
    have h2 : strLe T2 (ts.foldl tsMax t) = true := by
      rcases List.mem_cons.mp hT2mem with heq | hmem'
      · rw [heq]; exact hle
      · exact hall T2 hmem'
    exact congrArg some (strLe_antisymm h1 h2)

/-! ### Sorting facts -/

lemma perm_orderedInsert (le : α → α → Bool) (x : α) (l : List α) :
    (orderedInsert le x l).Perm (x :: l) := by
  induction l with
  | nil => exact List.Perm.refl _
  | cons y ys ih =>
    cases h : le x y with
    | true => simp [orderedInsert, h]
    | false =>
      simp only [orderedInsert, h, Bool.false_eq_true, if_false]
      exact (List.Perm.cons y ih).trans (List.Perm.swap x y ys)

lemma perm_sortBy (le : α → α → Bool) (l : List α) : (sortBy le l).Perm l := by
  induction l with
  | nil => exact List.Perm.refl _
  | cons x xs ih =>
    exact (perm_orderedInsert le x (sortBy le xs)).trans (List.Perm.cons x ih)

lemma pairwise_orderedInsert (le : α → α → Bool)
    (htot : ∀ a b, le a b = true ∨ le b a = true)
    (htrans : ∀ a b c, le a b = true → le b c = true → le a c = true)
    (x : α) (l : List α) (h : l.Pairwise (fun a b => le a b = true)) :
    (orderedInsert le x l).Pairwise (fun a b => le a b = true) := by
  induction l with
  | nil => simp [orderedInsert]
  | cons y ys ih =>
    obtain ⟨hy, hys⟩ := List.pairwise_cons.mp h
    cases hxy : le x y with
    | true =>
      simp only [orderedInsert, hxy, if_true]
      refine List.pairwise_cons.mpr ⟨?_, h⟩
      intro z hz
      rcases List.mem_cons.mp hz with rfl | hz'
      · exact hxy
      · exact htrans x y z hxy (hy z hz')
    | false =>
      simp only [orderedInsert, hxy, Bool.false_eq_true, if_false]
      refine List.pairwise_cons.mpr ⟨?_, ih hys⟩
      intro z hz
      have hz' : z = x ∨ z ∈ ys :=
        List.mem_cons.mp ((perm_orderedInsert le x ys).mem_iff.mp hz)
      rcases hz' with rfl | hz'
      · rcases htot z y with h1 | h1
        · rw [hxy] at h1; cases h1
        · exact h1
      · exact hy z hz'

lemma pairwise_sortBy (le : α → α → Bool)
    (htot : ∀ a b, le a b = true ∨ le b a = true)
    (htrans : ∀ a b c, le a b = true → le b c = true → le a c = true)
    (l : List α) :
    (sortBy le l).Pairwise (fun a b => le a b = true) := by
  induction l with
  | nil => simp [sortBy]
  | cons x xs ih => exact pairwise_orderedInsert le htot htrans x (sortBy le xs) ih

/-! ### The DESC-with-NULLs-last comparator -/

lemma optDescLe_total (a b : Option ℚ) : optDescLe a b = true ∨ optDescLe b a = true := by
  rcases a with _ | p <;> rcases b with _ | q <;> simp [optDescLe]
  exact le_total q p

lemma optDescLe_trans (a b c : Option ℚ)
    (h1 : optDescLe a b = true) (h2 : optDescLe b c = true) : optDescLe a c = true := by
  rcases a with _ | p <;> rcases b with _ | q <;> rcases c with _ | r <;>
    simp [optDescLe] at h1 h2 ⊢
  exact le_trans h2 h1

/-! ### Load facts -/

lemma insertAll_mem_error (df : List ObsRow) : ∀ store : List ObsRow,
    (∃ b ∈ df, ∃ r ∈ store, keyClash b r = true) →
    insertAll store df = Except.error LoadError.duplicateObservation := by
  induction df with
  | nil => intro store h; simp at h
  | cons r rest ih =>
    intro store h
    cases hany : store.any (keyClash r) with
    | true => simp [insertAll, hany]
    | false =>
      simp only [insertAll, hany, Bool.false_eq_true, if_false]
      apply ih
      obtain ⟨b, hb, s, hs, hcl⟩ := h
      rcases List.mem_cons.mp hb with rfl | hb'
      · exfalso
        have : store.any (keyClash b) = true := List.any_eq_true.mpr ⟨s, hs, hcl⟩
        rw [hany] at this
        cases this
      · exact ⟨b, hb', s, List.mem_append_left _ hs, hcl⟩

lemma insertAll_ok_eq (df : List ObsRow) : ∀ store s : List ObsRow,
    insertAll store df = Except.ok s → s = store ++ df := by
  induction df with
  | nil =>
    intro store s h
    simp only [insertAll, Except.ok.injEq] at h
    simp [← h]
  | cons r rest ih =>
    intro store s h
    cases hany : store.any (keyClash r) with
    | true => simp [insertAll, hany] at h
    | false =>
      simp only [insertAll, hany, Bool.false_eq_true, if_false] at h
      have := ih (store ++ [r]) s h
      simp [this]

/-! ### Per-item normalization facts -/

lemma normalizeItem_ts (now : String) (item : RawRecord) (row : NormRow)
    (h : normalizeItem now item = Except.ok row) : row.ts_utc = now := by
  unfold normalizeItem at h
  cases hU : pyUpper (pyOr (pyGet item "symbol") (JVal.str "")) with
  | error e => rw [hU] at h; cases h
  | ok s =>
    rw [hU] at h
    simp only [Except.ok.injEq] at h
    rw [← h]

lemma normalizeItem_wf (now : String) (item : RawRecord)
    (hs : symbolOk item = true) (hc : changeOk item = true) :
    normalizeItem now item = Except.ok (specNormalizedRow now item) := by
  have hchg : pyOr (pyGet item "price_change_percentage_24h") (JVal.num 0) =
      (match pyGet item "price_change_percentage_24h" with
       | JVal.num q => JVal.num q
       | _ => JVal.num 0) := by
    cases hcv : pyGet item "price_change_percentage_24h" with
    | null => simp [pyOr, pyTruthy]
    | num q =>
      by_cases hq : q = 0
      · subst hq; simp [pyOr, pyTruthy]
      · simp [pyOr, pyTruthy, hq]
    | str s => rw [changeOk, hcv] at hc; cases hc
    | bool b => rw [changeOk, hcv] at hc; cases hc
  have hsymv : pyUpper (pyOr (pyGet item "symbol") (JVal.str "")) =
      Except.ok (match pyGet item "symbol" with
                 | JVal.str s => strUpper s
                 | _ => "") := by
    cases hsv : pyGet item "symbol" with
    | null => simp [pyOr, pyTruthy, pyUpper, strUpper]
    | str s =>
      by_cases hempty : s = ""
      · subst hempty; simp [pyOr, pyTruthy, pyUpper]
      · simp [pyOr, pyTruthy, pyUpper, hempty]
    | num q => rw [symbolOk, hsv] at hs; cases hs
    | bool b => rw [symbolOk, hsv] at hs; cases hs
  unfold normalizeItem
  rw [hsymv, hchg]
  rfl

lemma normalize_rows_cons_ok (now : String) (item : RawRecord) (rest : List RawRecord)
    (rows : List NormRow) (h : normalize_rows now (item :: rest) = Except.ok rows) :
    ∃ row rs, normalizeItem now item = Except.ok row ∧
      normalize_rows now rest = Except.ok rs ∧ rows = row :: rs := by
  cases h1 : normalizeItem now item with
  | error e => simp [normalize_rows, h1] at h
  | ok row =>
    cases h2 : normalize_rows now rest with
    | error e => simp [normalize_rows, h1, h2] at h
    | ok rs =>
      simp [normalize_rows, h1, h2] at h
      exact ⟨row, rs, rfl, rfl, h.symm⟩

/-! ### Concrete data used by the witnesses -/

/-- A raw record with every field present and numeric change. -/
def demoRecBtc : RawRecord :=
  [("id", JVal.str "bitcoin"), ("symbol", JVal.str "btc"),
   ("current_price", JVal.num 40000), ("market_cap", JVal.null),
   ("total_volume", JVal.num 20000000000),
   ("price_change_percentage_24h", JVal.num 3)]

/-- A raw record with only an id. -/
def demoRecBare : RawRecord := [("id", JVal.str "ethereum")]

/-- A raw record with explicit nulls for symbol and 24h change. -/
def demoRecNulls : RawRecord :=
  [("id", JVal.str "bitcoin"), ("symbol", JVal.null),
   ("price_change_percentage_24h", JVal.null)]

/-- The row `normalizeItem` produces from `demoRecNulls`. -/
def demoRowNulls : NormRow :=
  ⟨"T", JVal.str "bitcoin", "", JVal.null, JVal.null, JVal.null, JVal.num 0, "coingecko"⟩

/-- The row `normalizeItem` produces from `demoRecBare`. -/
def demoRowBare : NormRow :=
  ⟨"T", JVal.str "ethereum", "", JVal.null, JVal.null, JVal.null, JVal.num 0, "coingecko"⟩

/-- A stored observation at the older of two timestamps. -/
def rowOld : ObsRow :=
  ⟨"2023-12-31 00:00:00+0000", "bitcoin", "BTC", some 39000, some 790000000000,
   none, none, "coingecko"⟩

/-- A stored observation for bitcoin at the newest timestamp. -/
def rowBtc : ObsRow :=
  ⟨"2024-01-01 00:00:00+0000", "bitcoin", "BTC", some 40000, some 800000000000,
   some 20000000000, some 3, "coingecko"⟩

/-- A stored observation for ethereum at the newest timestamp. -/
def rowEth : ObsRow :=
  ⟨"2024-01-01 00:00:00+0000", "ethereum", "ETH", some 2000, some 240000000000,
   some 10000000000, some 5, "coingecko"⟩

/-- A row with the same (`ts_utc`,`coin_id`) key as `rowBtc` but different
prices. -/
def rowBtcDup : ObsRow :=
  ⟨"2024-01-01 00:00:00+0000", "bitcoin", "BTC", some 41000, some 810000000000,
   some 21000000000, some 4, "coingecko"⟩

/-- A row whose key collides with nothing else in the witnesses. -/
def rowSol : ObsRow :=
  ⟨"2024-01-01 00:00:00+0000", "solana", "SOL", some 100, some 44000000000,
   some 2000000000, some 7, "coingecko"⟩

/-! ### The claims -/

/-- Claim C1: for every mapping-shaped payload whose `symbol` values are
strings or null and whose `price_change_percentage_24h` values are numbers
or null, `normalize_rows` succeeds and returns exactly one row per input
record, in input order, each row as described by `specNormalizedRow`:
`coin_id` is the record's `id`, `symbol` is the record's symbol
upper-cased (empty when missing or null), the three price fields pass
through with missing-or-null as null, and `change_24h_pct` is the record's
`price_change_percentage_24h`, with `0.0` when no numeric value is
present. -/
theorem claim_C1_normalize_shape (now : String) (payload : List RawRecord)
    (hwf : ∀ item ∈ payload, symbolOk item = true ∧ changeOk item = true) :
    normalize_rows now payload = Except.ok (payload.map (specNormalizedRow now)) := by
  induction payload with
  | nil => rfl
  | cons item rest ih =>
    obtain ⟨hs, hc⟩ := hwf item (List.mem_cons_self item rest)
    have hrest := ih (fun i hi => hwf i (List.mem_cons_of_mem _ hi))
    simp [normalize_rows, normalizeItem_wf now item hs hc, hrest]

/-- Witness for C1 at a two-record payload (one full record, one with only
an id). -/
theorem claim_C1_normalize_shape_witness :
    (∀ item ∈ [demoRecBtc, demoRecBare], symbolOk item = true ∧ changeOk item = true) ∧
    normalize_rows "T" [demoRecBtc, demoRecBare] =
      Except.ok ([demoRecBtc, demoRecBare].map (specNormalizedRow "T")) :=
  ⟨by decide, claim_C1_normalize_shape "T" [demoRecBtc, demoRecBare] (by decide)⟩

/-- Claim C2: every row produced by one `normalize_rows` call carries the
single `now` timestamp that the call captured before processing any
record. -/
theorem claim_C2_single_timestamp (now : String) (payload : List RawRecord)
    (rows : List NormRow) (h : normalize_rows now payload = Except.ok rows) :
    ∀ r ∈ rows, r.ts_utc = now := by
  induction payload generalizing rows with
  | nil =>
    simp only [normalize_rows, Except.ok.injEq] at h
    subst h
    intro r hr
    cases hr
  | cons item rest ih =>
    obtain ⟨row, rs, h1, h2, hrow⟩ := normalize_rows_cons_ok now item rest rows h
    subst hrow
    intro r hr
    rcases List.mem_cons.mp hr with rfl | hr'
    · exact normalizeItem_ts now item r h1
    · exact ih rs h2 r hr'

/-- Witness for C2 at a one-record payload. -/
theorem claim_C2_single_timestamp_witness :
    normalize_rows "T" [demoRecBare] = Except.ok [demoRowBare] ∧
    ∀ r ∈ [demoRowBare], r.ts_utc = "T" :=
  ⟨rfl, claim_C2_single_timestamp "T" [demoRecBare] [demoRowBare] rfl⟩

/-- Claim C10: the `or`-based defaults in `normalize_rows` apply to keys
that are present with an explicit null value, not only to missing keys: a
stored null `price_change_percentage_24h` yields `0.0` and a stored null
`symbol` yields the empty string. -/
theorem claim_C10_null_defaults (now : String) (item : RawRecord) (row : NormRow)
    (hok : normalizeItem now item = Except.ok row) :
    (item.lookup "price_change_percentage_24h" = some JVal.null →
      row.change_24h_pct = JVal.num 0) ∧
    (item.lookup "symbol" = some JVal.null → row.symbol = "") := by
  unfold normalizeItem at hok
  cases hU : pyUpper (pyOr (pyGet item "symbol") (JVal.str "")) with
  | error e => rw [hU] at hok; cases hok
  | ok s =>
    rw [hU] at hok
    simp only [Except.ok.injEq] at hok
    subst hok
    constructor
    · intro hnull
      show pyOr (pyGet item "price_change_percentage_24h") (JVal.num 0) = JVal.num 0
      simp [pyGet, hnull, pyOr, pyTruthy]
    · intro hnull
      have hU0 : pyUpper (pyOr (pyGet item "symbol") (JVal.str "")) = Except.ok "" := by
        simp [pyGet, hnull, pyOr, pyTruthy, pyUpper, strUpper]
      rw [hU0] at hU
      exact (Except.ok.inj hU).symm

/-- Witness for C10 at a record whose symbol and 24h-change keys are both
present with null values. -/
theorem claim_C10_null_defaults_witness :
    normalizeItem "T" demoRecNulls = Except.ok demoRowNulls ∧
    demoRecNulls.lookup "price_change_percentage_24h" = some JVal.null ∧
    demoRecNulls.lookup "symbol" = some JVal.null ∧
    demoRowNulls.change_24h_pct = JVal.num 0 ∧
    demoRowNulls.symbol = "" := by
  refine ⟨rfl, rfl, rfl, ?_, ?_⟩
  · exact (claim_C10_null_defaults "T" demoRecNulls demoRowNulls rfl).1 rfl
  · exact (claim_C10_null_defaults "T" demoRecNulls demoRowNulls rfl).2 rfl

/-- Claim C3: when `T2` is the maximum `captured_at` present in a
(necessarily non-empty) store, the `MAX` query returns `T2`, the snapshot
rows are exactly the observations stamped `T2` (as a multiset), the movers
report is a permutation of that same row set, and no snapshot row carries
an earlier timestamp. -/
theorem claim_C3_latest_rows_only (store : List ObsRow) (T2 : String)
    (hmem : ∃ r ∈ store, r.ts_utc = T2)
    (hmax : ∀ r ∈ store, strLe r.ts_utc T2 = true) :
    latestTs store = some T2 ∧
    (selectSnapshot store).Perm (store.filter (fun r => r.ts_utc == T2)) ∧
    (topMovers store).Perm (selectSnapshot store) ∧
    ∀ r ∈ selectSnapshot store, r.ts_utc = T2 := by
  have hts := latestTs_eq_some store T2 hmem hmax
  have hfil : selectSnapshot store =
      sortBy (fun a b => optDescLe a.market_cap_usd b.market_cap_usd)
        (store.filter (fun r => r.ts_utc == T2)) := by
    unfold selectSnapshot
    rw [hts]
    rfl
  have hP : (selectSnapshot store).Perm (store.filter (fun r => r.ts_utc == T2)) := by
    rw [hfil]
    exact perm_sortBy _ _
  refine ⟨hts, hP, perm_sortBy _ _, ?_⟩
  intro r hr
  obtain ⟨-, hbeq⟩ := List.mem_filter.mp (hP.mem_iff.mp hr)
  exact eq_of_beq hbeq

/-- Witness for C3 at a three-row store holding two timestamps. -/
theorem claim_C3_latest_rows_only_witness :
    (∃ r ∈ [rowOld, rowEth, rowBtc], r.ts_utc = "2024-01-01 00:00:00+0000") ∧
    (∀ r ∈ [rowOld, rowEth, rowBtc],
      strLe r.ts_utc "2024-01-01 00:00:00+0000" = true) ∧
    (latestTs [rowOld, rowEth, rowBtc] = some "2024-01-01 00:00:00+0000" ∧
     (selectSnapshot [rowOld, rowEth, rowBtc]).Perm
       ([rowOld, rowEth, rowBtc].filter
         (fun r => r.ts_utc == "2024-01-01 00:00:00+0000")) ∧
     (topMovers [rowOld, rowEth, rowBtc]).Perm (selectSnapshot [rowOld, rowEth, rowBtc]) ∧
     ∀ r ∈ selectSnapshot [rowOld, rowEth, rowBtc],
       r.ts_utc = "2024-01-01 00:00:00+0000") :=
  ⟨by decide, by decide,
    claim_C3_latest_rows_only [rowOld, rowEth, rowBtc] "2024-01-01 00:00:00+0000"
      (by decide) (by decide)⟩

/-- Claim C4: for a non-empty store, the snapshot report is non-increasing
in `market_cap_usd` with nulls last, the movers report is non-increasing in
`change_24h_pct` with nulls last, and the movers report is the same row set
as the snapshot report. -/
theorem claim_C4_report_ordering (store : List ObsRow) (_hne : store ≠ []) :
    ((selectSnapshot store).Pairwise (fun a b =>
      match a.market_cap_usd, b.market_cap_usd with
      | _, none => True
      | none, some _ => False
      | some p, some q => q ≤ p)) ∧
    ((topMovers store).Pairwise (fun a b =>
      match a.change_24h_pct, b.change_24h_pct with
      | _, none => True
      | none, some _ => False
      | some p, some q => q ≤ p)) ∧
    (topMovers store).Perm (selectSnapshot store) := by
  have key : ∀ (x y : Option ℚ), optDescLe x y = true →
      (match x, y with
       | _, none => True
       | none, some _ => False
       | some p, some q => q ≤ p) := by
    intro x y h
    rcases x with _ | p <;> rcases y with _ | q <;> simp [optDescLe] at h ⊢
    exact h
  refine ⟨?_, ?_, perm_sortBy _ _⟩
  · exact (pairwise_sortBy (fun a b : ObsRow => optDescLe a.market_cap_usd b.market_cap_usd)
      (fun a b => optDescLe_total _ _) (fun a b c => optDescLe_trans _ _ _) _).imp
      (fun h => key _ _ h)
  · exact (pairwise_sortBy (fun a b : ObsRow => optDescLe a.change_24h_pct b.change_24h_pct)
      (fun a b => optDescLe_total _ _) (fun a b c => optDescLe_trans _ _ _) _).imp
      (fun h => key _ _ h)

/-- Witness for C4 at a three-row store (one row with null market cap). -/
theorem claim_C4_report_ordering_witness :
    (([rowOld, rowEth, rowBtc] : List ObsRow) ≠ []) ∧
    (((selectSnapshot [rowOld, rowEth, rowBtc]).Pairwise (fun a b =>
      match a.market_cap_usd, b.market_cap_usd with
      | _, none => True
      | none, some _ => False
      | some p, some q => q ≤ p)) ∧
    ((topMovers [rowOld, rowEth, rowBtc]).Pairwise (fun a b =>
      match a.change_24h_pct, b.change_24h_pct with
      | _, none => True
      | none, some _ => False
      | some p, some q => q ≤ p)) ∧
    (topMovers [rowOld, rowEth, rowBtc]).Perm (selectSnapshot [rowOld, rowEth, rowBtc])) :=
  ⟨by decide, claim_C4_report_ordering [rowOld, rowEth, rowBtc] (by decide)⟩

/-- Claim C5 as stated is false: the CSV files do not place `ts_utc` first
and have no `source` column.  At the concrete empty store, the header line
written by `export_snapshots` is
`coin_id,symbol,ts_utc,price_usd,market_cap_usd,volume_24h_usd,change_24h_pct`,
which differs from the §3 order the claim asserts. -/
theorem claim_C5_counterexample :
    (export_snapshots []).1.head? =
      some "coin_id,symbol,ts_utc,price_usd,market_cap_usd,volume_24h_usd,change_24h_pct" ∧
    (export_snapshots []).1.head? ≠
      some "ts_utc,coin_id,symbol,price_usd,market_cap_usd,volume_24h_usd,change_24h_pct,source" ∧
    snapCols ≠
      ["ts_utc", "coin_id", "symbol", "price_usd", "market_cap_usd",
       "volume_24h_usd", "change_24h_pct", "source"] := by
  refine ⟨rfl, by decide, by decide⟩

/-- Claim C5, amended: both CSV files consist of a header line followed by
one line per report row, with columns in the order
`coin_id, symbol, ts_utc, price_usd, market_cap_usd, volume_24h_usd,
change_24h_pct` and no `source` column. -/
theorem claim_C5_csv_layout (store : List ObsRow) :
    (export_snapshots store).1 =
      "coin_id,symbol,ts_utc,price_usd,market_cap_usd,volume_24h_usd,change_24h_pct" ::
        (selectSnapshot store).map (fun r => String.intercalate "," (renderObs r)) ∧
    (export_snapshots store).1.length = (selectSnapshot store).length + 1 ∧
    (export_snapshots store).2 =
      "coin_id,symbol,ts_utc,price_usd,market_cap_usd,volume_24h_usd,change_24h_pct" ::
        (topMovers store).map (fun r => String.intercalate "," (renderObs r)) ∧
    (export_snapshots store).2.length = (topMovers store).length + 1 := by
  have hhead : String.intercalate "," snapCols =
      "coin_id,symbol,ts_utc,price_usd,market_cap_usd,volume_24h_usd,change_24h_pct" := rfl
  refine ⟨?_, ?_, ?_, ?_⟩ <;>
    simp [export_snapshots, to_csv, List.map_map, Function.comp, hhead]

/-- Claim C6: loading a batch that repeats a (`coin_id`,`captured_at`) key
already present in the store fails with the duplicate-observation error and
leaves the store exactly as it was — no row of the failing batch is kept. -/
theorem claim_C6_duplicate_batch_fails (store batch : List ObsRow)
    (hdup : ∃ b ∈ batch, ∃ r ∈ store, keyClash b r = true) :
    (load_into_sqlite store batch).err = some LoadError.duplicateObservation ∧
    (load_into_sqlite store batch).store = store := by
  have hne : batch.isEmpty = false := by
    obtain ⟨b, hb, -⟩ := hdup
    cases batch
    · cases hb
    · rfl
  have herr := insertAll_mem_error batch store hdup
  simp [load_into_sqlite, hne, herr]

/-- Witness for C6: a second-call batch holding one fresh row and one row
whose key duplicates a stored row; nothing of the batch survives. -/
theorem claim_C6_duplicate_batch_fails_witness :
    (∃ b ∈ [rowSol, rowBtcDup], ∃ r ∈ [rowOld, rowBtc], keyClash b r = true) ∧
    (load_into_sqlite [rowOld, rowBtc] [rowSol, rowBtcDup]).err =
      some LoadError.duplicateObservation ∧
    (load_into_sqlite [rowOld, rowBtc] [rowSol, rowBtcDup]).store = [rowOld, rowBtc] :=
  ⟨by decide, claim_C6_duplicate_batch_fails [rowOld, rowBtc] [rowSol, rowBtcDup] (by decide)⟩

/-- Claim C7: loading an empty list is a no-op — no error, the store is
untouched, and exactly one warning-level log line is emitted. -/
theorem claim_C7_empty_load_noop (store : List ObsRow) :
    load_into_sqlite store [] =
      { store := store, err := none,
        logs := [⟨LogLevel.warning, "No rows to load."⟩] } := rfl

/-- Claim C8: exporting from an empty store raises nothing (the embedding
is total on the empty store and produces a value): the `MAX` query yields
null, the detail query's null parameter matches no row, the snapshot row
set is empty and both CSV files hold only the header line. -/
theorem claim_C8_empty_store_export :
    latestTs [] = none ∧
    (∀ v : String, sqlEq v none = false) ∧
    selectSnapshot [] = [] ∧
    export_snapshots [] =
      (["coin_id,symbol,ts_utc,price_usd,market_cap_usd,volume_24h_usd,change_24h_pct"],
       ["coin_id,symbol,ts_utc,price_usd,market_cap_usd,volume_24h_usd,change_24h_pct"]) :=
  ⟨rfl, fun _ => rfl, rfl, rfl⟩

/-- Claim C9: a successful load appends exactly the batch: the new store is
the old rows (unchanged, still a prefix) followed by the batch; nothing is
updated or deleted. -/
theorem claim_C9_load_is_append (store batch : List ObsRow)
    (h : (load_into_sqlite store batch).err = none) :
    (load_into_sqlite store batch).store = store ++ batch ∧
    store <+: (load_into_sqlite store batch).store := by
  cases batch with
  | nil => exact ⟨by simp [load_into_sqlite], ⟨[], by simp [load_into_sqlite]⟩⟩
  | cons b bs =>
    unfold load_into_sqlite at h ⊢
    simp only [List.isEmpty_cons, Bool.false_eq_true, if_false] at h ⊢
    cases hins : insertAll store (b :: bs) with
    | ok s =>
      have hs := insertAll_ok_eq (b :: bs) store s hins
      exact ⟨hs, ⟨b :: bs, hs.symm⟩⟩
    | error e =>
      rw [hins] at h
      exact Option.noConfusion h

/-- Witness for C9: a second load at a fresh timestamp succeeds and the
store becomes old rows plus the batch. -/
theorem claim_C9_load_is_append_witness :
    (load_into_sqlite [rowOld] [rowBtc, rowEth]).err = none ∧
    (load_into_sqlite [rowOld] [rowBtc, rowEth]).store = [rowOld] ++ [rowBtc, rowEth] ∧
    [rowOld] <+: (load_into_sqlite [rowOld] [rowBtc, rowEth]).store :=
  ⟨by decide, claim_C9_load_is_append [rowOld] [rowBtc, rowEth] (by decide)⟩

end CryptoPipeline
